import Mathlib

set_option maxRecDepth 10000

/-!
Shallow embedding of `src/hikvision_unbrick.py`, a single-purpose TFTP
server used to recover a bricked Hikvision device.  Python `bytes` values
are modelled as `List Nat` with every element below 256; Python `str`
values (obtained by `bytes.decode`) are modelled as lists of Unicode code
points, also `List Nat`.  Fallible operations (`raise TFTPError`,
`struct.error`) are modelled with `Except`.  Console output is ignored:
the spec declares progress/status printing out of scope.
-/

namespace Unbrick

deriving instance DecidableEq for Except

/-- Python `bytes`: a list of byte values. -/
abbrev Bytes := List Nat

/-- Every element of the list is a genuine byte value (below 256). -/
def ValidBytes (b : Bytes) : Prop := ∀ x ∈ b, x < 256

instance : DecidablePred ValidBytes := fun b =>
  List.decidableBAll (fun x => x < 256) b

/-- Model of `bytes.startswith(pat)` (line 170 and 188 of the source). -/
def bytesStartsWith : Bytes → Bytes → Bool
  | _, [] => true
  | [], _ :: _ => false
  | a :: as, b :: bs => a == b && bytesStartsWith as bs

/-- Constant `HANDSHAKE_BYTES = struct.pack('20s', b'SWKH')` (line 21):
the four bytes of `SWKH` padded with NUL bytes to length 20. -/
def HANDSHAKE_BYTES : Bytes := [83, 87, 75, 72] ++ List.replicate 16 0

/-- Constant `DEFAULT_BLOCK_SIZE = 512` (line 25). -/
def DEFAULT_BLOCK_SIZE : Nat := 512

/-- TFTP opcode `OP_RRQ = 1` (line 28). -/
def OP_RRQ : Nat := 1

/-- TFTP opcode `OP_DATA = 3` (line 29). -/
def OP_DATA : Nat := 3

/-- TFTP opcode `OP_ACK = 4` (line 30). -/
def OP_ACK : Nat := 4

/-- TFTP opcode `OP_OACK = 6` (line 31). -/
def OP_OACK : Nat := 6

/-- Model of `struct.pack('>H', n)` for `n < 65536`: two bytes, big endian. -/
def pack16 (n : Nat) : Bytes := [n / 256, n % 256]

/-- Model of `struct.pack('>H', n)` including its failure mode:
`struct.error` is raised when the value does not fit in 16 bits.  Used
where the packed value is not a constant (the DATA block number). -/
def pack16Checked (n : Nat) : Option Bytes :=
  if n < 65536 then some (pack16 n) else none

/-- Constant `ACK_PREFIX = struct.pack('>H', OP_ACK)` (line 32). -/
def ackHead : Bytes := pack16 OP_ACK

/-- The byte pattern `b"\x00octet\x00"` used to build the RRQ prefix
(line 48) and to split off the option bytes (line 97). -/
def octetMarker : Bytes := [0, 111, 99, 116, 101, 116, 0]

/-- Exceptions that can escape the per-datagram handlers: the script's
`TFTPError` (line 35) and `struct.error` from `struct.pack`. -/
inductive PyError where
  | tftpError (msg : String)
  | structError
deriving DecidableEq, Repr

/-- The mutable server state of class `TFTPServer`: the firmware bytes
`_data`, the precomputed RRQ prefix `_rrq_prefix` (opcode 1, filename,
NUL, "octet", NUL; line 46), and the transfer state `_block_size` /
`_total_blocks`. -/
structure TFTPServer where
  data : Bytes
  rrqHead : Bytes
  block_size : Nat
  total_blocks : Nat
deriving DecidableEq, Repr

/-- Method `_set_block_size` (lines 81-85): store the size and recompute
`_total_blocks = (len(self._data) + size - 1) // size`. -/
def setBlockSize (s : TFTPServer) (size : Nat) : TFTPServer :=
  { s with
    block_size := size
    total_blocks := (s.data.length + size - 1) / size }

/-- Method `_check_limits` (lines 87-89): raise `TFTPError` when
`_total_blocks > 65535`. -/
def checkLimits (s : TFTPServer) : Except PyError Unit :=
  if s.total_blocks > 65535 then
    .error (.tftpError ("File too large for block size " ++ toString s.block_size))
  else
    .ok ()

/-- Model of `bytes.split(sep, 1)[1]`: the bytes after the first
occurrence of `sep`, or `none` when `sep` does not occur (the code's
`IndexError` branch, lines 96-99). -/
def splitAfterFirst (sep : Bytes) : Bytes → Option Bytes
  | [] => if bytesStartsWith [] sep then some [] else none
  | a :: t =>
    if bytesStartsWith (a :: t) sep then some ((a :: t).drop sep.length)
    else splitAfterFirst sep t

/-- Model of `bytes.split(b'\x00')` (line 100): split on every NUL byte,
keeping empty chunks; the empty input yields one empty chunk. -/
def splitOnZero : Bytes → List Bytes
  | [] => [[]]
  | b :: t =>
    if b = 0 then [] :: splitOnZero t
    else
      match splitOnZero t with
      | c :: cs => (b :: c) :: cs
      | [] => [[b]]

/-- Continuation byte test for UTF-8 (`0x80 ≤ b < 0xC0`). -/
def contByte (b : Nat) : Bool := 128 ≤ b && b < 192

/-- Worker for `utf8DecodeIgnore`; the fuel is an upper bound on the
number of bytes still to be consumed, so it never runs out. -/
def utf8DecodeAux : Nat → Bytes → List Nat
  | 0, _ => []
  | _, [] => []
  | fuel + 1, b :: rest =>
    if b < 128 then b :: utf8DecodeAux fuel rest
    else if b < 194 then utf8DecodeAux fuel rest
    else if b < 224 then
      match rest with
      | c :: r2 =>
        if contByte c then ((b - 192) * 64 + (c - 128)) :: utf8DecodeAux fuel r2
        else utf8DecodeAux fuel rest
      | [] => []
    else if b < 240 then
      match rest with
      | c :: d :: r2 =>
        if contByte c && contByte d then
          let cp := (b - 224) * 4096 + (c - 128) * 64 + (d - 128)
          if 2048 ≤ cp && !(55296 ≤ cp && cp ≤ 57343) then cp :: utf8DecodeAux fuel r2
          else utf8DecodeAux fuel rest
        else utf8DecodeAux fuel rest
      | _ => []
    else if b < 245 then
      match rest with
      | c :: d :: e :: r2 =>
        if contByte c && contByte d && contByte e then
          let cp := (b - 240) * 262144 + (c - 128) * 4096 + (d - 128) * 64 + (e - 128)
          if 65536 ≤ cp && cp ≤ 1114111 then cp :: utf8DecodeAux fuel r2
          else utf8DecodeAux fuel rest
        else utf8DecodeAux fuel rest
      | _ => []
    else utf8DecodeAux fuel rest

/-- Model of `bytes.decode(errors='ignore')` (lines 104-105): decode
UTF-8, dropping bytes that do not form a valid sequence, and drop a
truncated sequence at the end of the input.  The result is the list of
decoded code points.  (On inputs that are pure ASCII — the only inputs
any later lookup cares about — this is the identity on byte values.) -/
def utf8DecodeIgnore (l : Bytes) : List Nat := utf8DecodeAux l.length l

/-- ASCII lowering of one code point, the part of `str.lower()` (line
104) that is relevant to the only key ever looked up, `'blksize'`. -/
def lowerCp (c : Nat) : Nat := if 65 ≤ c ∧ c ≤ 90 then c + 32 else c

/-- Model of `str.lower()` (line 104) on a list of code points. -/
def pyLower (s : List Nat) : List Nat := s.map lowerCp

/-- ASCII decimal digit test, for `int()`. -/
def isDigitCp (c : Nat) : Bool := 48 ≤ c && c ≤ 57

/-- ASCII whitespace test, for the implicit strip performed by `int()`. -/
def isSpaceCp (c : Nat) : Bool :=
  c == 32 || c == 9 || c == 10 || c == 11 || c == 12 || c == 13

/-- Digit-run parser for `int()`: accepts decimal digits with single
underscores between digits, as Python does. -/
def intDigits : Nat → List Nat → Option Nat
  | acc, [] => some acc
  | acc, c :: t =>
    if isDigitCp c then intDigits (acc * 10 + (c - 48)) t
    else if c = 95 then
      match t with
      | d :: t2 => if isDigitCp d then intDigits ((acc * 10 + (d - 48))) t2 else none
      | [] => none
    else none

/-- Start of the digit run for `int()`: at least one digit is required,
and it may not be an underscore. -/
def intDigitsStart : List Nat → Option Nat
  | [] => none
  | c :: t => if isDigitCp c then intDigits (c - 48) t else none

/-- Model of Python `int(s)` on a decoded string (line 175): strip
surrounding whitespace, allow one optional sign, then a non-empty digit
run; anything else raises `ValueError`, modelled as `none`. -/
def pyInt (s : List Nat) : Option Int :=
  let s1 := ((s.dropWhile isSpaceCp).reverse.dropWhile isSpaceCp).reverse
  match s1 with
  | 43 :: rest => (intDigitsStart rest).map Int.ofNat
  | 45 :: rest => (intDigitsStart rest).map (fun n => -(Int.ofNat n))
  | rest => (intDigitsStart rest).map Int.ofNat

/-- Python `dict` assignment `opts[key] = val` (line 107) on an
association list: overwrite in place when the key is present, else
append. -/
def dictInsert (d : List (List Nat × List Nat)) (k v : List Nat) :
    List (List Nat × List Nat) :=
  match d with
  | [] => [(k, v)]
  | (k2, v2) :: t => if k2 = k then (k, v) :: t else (k2, v2) :: dictInsert t k v

/-- Python `dict` lookup on the association list built by `dictInsert`. -/
def dictGet (d : List (List Nat × List Nat)) (k : List Nat) : Option (List Nat) :=
  match d with
  | [] => none
  | (k2, v) :: t => if k2 = k then some v else dictGet t k

/-- The `while i < len(parts) - 1` loop of `_parse_options` (lines
102-108): walk the chunks two at a time; a lone trailing chunk is
dropped, an empty (lowercased, decoded) key is skipped. -/
def optLoop : List Bytes → List (List Nat × List Nat) → List (List Nat × List Nat)
  | k :: v :: rest, acc =>
    optLoop rest
      (if pyLower (utf8DecodeIgnore k) = [] then acc
       else dictInsert acc (pyLower (utf8DecodeIgnore k)) (utf8DecodeIgnore v))
  | _, acc => acc

/-- Method `_parse_options` (lines 94-110): everything after the first
`b"\x00octet\x00"` is split on NUL bytes and paired into an options
dictionary; a packet without the marker yields the empty dictionary. -/
def parseOptions (pkt : Bytes) : List (List Nat × List Nat) :=
  match splitAfterFirst octetMarker pkt with
  | none => []
  | some afterMode => optLoop (splitOnZero afterMode) []

/-- The code points of the string `'blksize'` (line 173). -/
def blksizeKey : List Nat := [98, 108, 107, 115, 105, 122, 101]

/-- Worker for `natDecimalCodes`; the fuel (any bound on the digit
count, here the number itself plus one) keeps the recursion
structural. -/
def natDecimalCodesAux : Nat → Nat → List Nat
  | 0, _ => []
  | fuel + 1, n =>
    if n < 10 then [48 + n]
    else natDecimalCodesAux fuel (n / 10) ++ [48 + n % 10]

/-- ASCII decimal representation of a natural number, modelling
`str(self._block_size).encode()` (line 203). -/
def natDecimalCodes (n : Nat) : List Nat := natDecimalCodesAux (n + 1) n

/-- Method `_send_oack` (lines 199-205): re-check the limits (which can
raise), then send one OACK packet `opcode 6 ++ b"blksize\x00" ++
str(block_size) ++ b"\x00"` to `addr`.  Sent packets are returned as
`(destination, bytes)` pairs. -/
def sendOack (s : TFTPServer) (addr : Nat) : Except PyError (List (Nat × Bytes)) :=
  match checkLimits s with
  | .error e => .error e
  | .ok _ =>
    .ok [(addr, pack16 OP_OACK ++ blksizeKey ++ [0] ++ natDecimalCodes s.block_size ++ [0])]

/-- Method `_send_block` (lines 210-230): compute the slice
`self._data[prev_block * bs : prev_block * bs + bs]`.  When the slice is
empty the transfer is finished: reset the block size to the default when
it differs, and send nothing.  Otherwise pack `('>HH', OP_DATA, block)`
— which raises `struct.error` when `block` does not fit 16 bits — and
send the packet to `addr`.  (The progress-bar `print` is console output,
out of scope.) -/
def sendBlock (s : TFTPServer) (prevBlock : Nat) (addr : Nat) :
    Except PyError (TFTPServer × List (Nat × Bytes)) :=
  let block := prevBlock + 1
  let start := prevBlock * s.block_size
  let chunk := (s.data.drop start).take s.block_size
  if chunk = [] then
    .ok (if s.block_size ≠ DEFAULT_BLOCK_SIZE then setBlockSize s DEFAULT_BLOCK_SIZE else s, [])
  else
    match pack16Checked block with
    | none => .error .structError
    | some bb => .ok (s, [(addr, pack16 OP_DATA ++ bb ++ chunk)])

/-- The shared fall-through of the RRQ branch of `_handle_tftp` (lines
183-185), reached when no usable `blksize` option was found:
`self._check_limits()` then `self._send_block(0, addr)`. -/
def rrqDefault (s : TFTPServer) (addr : Nat) :
    Except PyError (TFTPServer × List (Nat × Bytes)) :=
  match checkLimits s with
  | .error e => .error e
  | .ok _ => sendBlock s 0 addr

/-- Method `_handle_tftp` (lines 165-194) for one received datagram
`pkt` from `addr`.  A packet starting with the RRQ prefix has its
options parsed; a `blksize` value that parses as an `int` in
`[8, 65464]` is adopted (`_set_block_size`) and answered with an OACK,
anything else falls through to the default path.  A packet starting
with the ACK opcode that is at least 4 bytes long has its big-endian
block number unpacked and answered by `_send_block`.  Anything else is
only logged. -/
def handleTftp (s : TFTPServer) (pkt : Bytes) (addr : Nat) :
    Except PyError (TFTPServer × List (Nat × Bytes)) :=
  if bytesStartsWith pkt s.rrqHead then
    match dictGet (parseOptions pkt) blksizeKey with
    | some v =>
      match pyInt v with
      | some sz =>
        if 8 ≤ sz ∧ sz ≤ 65464 then
          match sendOack (setBlockSize s sz.toNat) addr with
          | .error e => .error e
          | .ok out => .ok (setBlockSize s sz.toNat, out)
        else rrqDefault s addr
      | none => rrqDefault s addr
    | none => rrqDefault s addr
  else if bytesStartsWith pkt ackHead ∧ 4 ≤ pkt.length then
    sendBlock s (pkt.getD 2 0 * 256 + pkt.getD 3 0) addr
  else
    .ok (s, [])

/-- Method `_handle_handshake` (lines 153-160): `recvfrom(20)` delivers
at most the first 20 bytes of the datagram (the kernel truncates the
rest of a larger UDP datagram); when those bytes equal
`HANDSHAKE_BYTES` they are echoed to the sender, otherwise the datagram
is only logged. -/
def handleHandshake (dgram : Bytes) (addr : Nat) : List (Nat × Bytes) :=
  let pkt := dgram.take 20
  if pkt = HANDSHAKE_BYTES then [(addr, pkt)] else []

/-- Constructor `TFTPServer.__init__` (lines 41-54) without the socket
binds: store the firmware, build the RRQ prefix
`pack('>H', OP_RRQ) + filename + b'\x00octet\x00'`, then
`_set_block_size(DEFAULT_BLOCK_SIZE)`. -/
def initServer (filename fw : Bytes) : TFTPServer :=
  setBlockSize
    { data := fw
      rrqHead := pack16 OP_RRQ ++ filename ++ octetMarker
      block_size := 0
      total_blocks := 0 }
    DEFAULT_BLOCK_SIZE

/-- The TFTP side of the `run` event loop (lines 132-145) on a list of
incoming datagrams: each datagram is handled in turn; the first
exception escaping a handler is caught by the loop's generic
`except Exception`, which prints the error and breaks out of the loop.
Returns the final state, every packet sent, and whether the loop was
ended by such an exception. -/
def runLoop : TFTPServer → List (Bytes × Nat) → TFTPServer × List (Nat × Bytes) × Bool
  | s, [] => (s, [], false)
  | s, (pkt, addr) :: rest =>
    match handleTftp s pkt addr with
    | .ok (s2, out) =>
      let r := runLoop s2 rest
      (r.1, out ++ r.2.1, r.2.2)
    | .error _ => (s, [], true)

/-- The `__main__` block (lines 235-288) reduced to its exit behaviour:
a missing or empty firmware file exits with status 1 before the server
starts; otherwise the server is created and `run()` is called, and since
`run` catches every exception from the loop body itself (printing
"Unexpected error" and breaking), `run` always returns and the script
falls off the end with exit status 0.  Returns the exit status and the
packets the TFTP socket sent. -/
def pyMain (fileFound : Bool) (filename fw : Bytes) (ds : List (Bytes × Nat)) :
    Nat × List (Nat × Bytes) :=
  if fileFound = false then (1, [])
  else if fw = [] then (1, [])
  else
    let r := runLoop (initServer filename fw) ds
    (0, r.2.1)

/-- Spec-side summary of lines 173-181: the accepted `blksize` value of a
request, when its option dictionary holds one that parses as an integer
in `[8, 65464]`; `none` when the option is absent, unparsable or out of
range.  Used only to state theorems about `handleTftp`. -/
def usableBlksizeB (pkt : Bytes) : Option Int :=
  match dictGet (parseOptions pkt) blksizeKey with
  | none => none
  | some v =>
    match pyInt v with
    | none => none
    | some sz => if 8 ≤ sz ∧ sz ≤ 65464 then some sz else none

/-- A firmware image of 524281 zero bytes: one byte more than
`65535 * 8`, so at block size 8 it needs 65536 blocks. -/
def fwBig : Bytes := List.replicate 524281 0

/-- A firmware image of 520 zero bytes. -/
def fw520 : Bytes := List.replicate 520 0

/-- The option-less RRQ for the filename `"f"` (byte 102). -/
def rrqPkt102 : Bytes := pack16 OP_RRQ ++ [102] ++ octetMarker

/-- The RRQ for `"f"` carrying the option `blksize=8`. -/
def rrqPktB8 : Bytes := rrqPkt102 ++ blksizeKey ++ [0, 56, 0]

/-! ### Helper lemmas -/

/-- The code's block-count formula is the ceiling of `L / S`: it is the
least `m` with `L ≤ S * m`. -/
theorem ceil_le_iff {L S m : Nat} (hS : 0 < S) : (L + S - 1) / S ≤ m ↔ L ≤ S * m := by
  rw [Nat.div_le_iff_le_mul_add_pred hS]
  generalize S * m = p
  omega

/-- The data slice of `_send_block` is empty exactly when the start
offset is past the end of the firmware. -/
theorem chunk_eq_nil_iff {l : List Nat} {n m : Nat} (hm : 0 < m) :
    (l.drop n).take m = [] ↔ l.length ≤ n := by
  rw [List.take_eq_nil_iff, List.drop_eq_nil_iff]
  omega

/-- `bytesStartsWith` agrees with the existence of a byte-list suffix. -/
theorem bytesStartsWith_iff {l p : Bytes} : bytesStartsWith l p = true ↔ ∃ t, l = p ++ t := by
  induction p generalizing l with
  | nil =>
    constructor
    · intro _; exact ⟨l, rfl⟩
    · intro _; cases l <;> rfl
  | cons b bs ih =>
    cases l with
    | nil =>
      constructor
      · intro h; cases h
      · rintro ⟨t, ht⟩; cases ht
    | cons a as =>
      simp only [bytesStartsWith, Bool.and_eq_true, beq_iff_eq, ih, List.cons_append]
      constructor
      · rintro ⟨rfl, t, rfl⟩; exact ⟨t, rfl⟩
      · rintro ⟨t, ht⟩
        injection ht with h1 h2
        exact ⟨h1, t, h2⟩

/-- ASCII lowering is idempotent on a code point. -/
theorem lowerCp_idem (c : Nat) : lowerCp (lowerCp c) = lowerCp c := by
  by_cases h : 65 ≤ c ∧ c ≤ 90
  · simp only [lowerCp, if_pos h]
    rw [if_neg (by omega)]
  · simp only [lowerCp, if_neg h]

/-- ASCII lowering is idempotent on a string. -/
theorem pyLower_idem (s : List Nat) : pyLower (pyLower s) = pyLower s := by
  induction s with
  | nil => rfl
  | cons c t ih =>
    simp only [pyLower, List.map_cons] at ih ⊢
    rw [lowerCp_idem]
    exact congrArg _ (by simpa [pyLower] using ih)

/-- A member of `dictInsert d k v` is the inserted pair or an old one. -/
theorem mem_dictInsert {d : List (List Nat × List Nat)} {k v : List Nat}
    {x : List Nat × List Nat} (hx : x ∈ dictInsert d k v) : x = (k, v) ∨ x ∈ d := by
  induction d with
  | nil =>
    simp only [dictInsert, List.mem_singleton] at hx
    exact Or.inl hx
  | cons p t ih =>
    obtain ⟨k2, v2⟩ := p
    unfold dictInsert at hx
    by_cases h : k2 = k
    · rw [if_pos h] at hx
      rcases List.mem_cons.mp hx with h1 | h2
      · exact Or.inl h1
      · exact Or.inr (List.mem_cons_of_mem _ h2)
    · rw [if_neg h] at hx
      rcases List.mem_cons.mp hx with h1 | h2
      · exact Or.inr (h1 ▸ List.mem_cons_self _ _)
      · rcases ih h2 with h3 | h4
        · exact Or.inl h3
        · exact Or.inr (List.mem_cons_of_mem _ h4)

/-- Every pair produced by the option loop that was not already in the
accumulator has a non-empty key that is a fixed point of lowering. -/
theorem optLoop_keys :
    ∀ (parts : List Bytes) (acc : List (List Nat × List Nat)) (x : List Nat × List Nat),
      x ∈ optLoop parts acc →
      (∀ y ∈ acc, y.1 ≠ [] ∧ pyLower y.1 = y.1) →
      x.1 ≠ [] ∧ pyLower x.1 = x.1
  | [], _, x, hx, hacc => hacc x hx
  | [_], _, x, hx, hacc => hacc x hx
  | k :: v :: rest, acc, x, hx, hacc => by
    rw [optLoop] at hx
    refine optLoop_keys rest _ x hx ?_
    intro y hy
    by_cases hk : pyLower (utf8DecodeIgnore k) = []
    · rw [if_pos hk] at hy
      exact hacc y hy
    · rw [if_neg hk] at hy
      rcases mem_dictInsert hy with rfl | hmem
      · exact ⟨hk, pyLower_idem _⟩
      · exact hacc y hmem

/-- A lone chunk appended after an even number of chunks is ignored by
the option loop: the `while i < len(parts) - 1` bound drops it. -/
theorem optLoop_even_append (x : Bytes) :
    ∀ (parts : List Bytes) (acc : List (List Nat × List Nat)),
      parts.length % 2 = 0 → optLoop (parts ++ [x]) acc = optLoop parts acc
  | [], _, _ => rfl
  | [_], _, h => absurd h (by simp)
  | k :: v :: rest, acc, h => by
    rw [List.cons_append, List.cons_append, optLoop, optLoop]
    exact optLoop_even_append x rest _ (by simp only [List.length_cons] at h; omega)

/-- An RRQ without a usable `blksize` option takes the fall-through
path of lines 183-185. -/
theorem handleTftp_rrq_none {s : TFTPServer} {pkt : Bytes} {addr : Nat}
    (hstart : bytesStartsWith pkt s.rrqHead = true)
    (hu : usableBlksizeB pkt = none) :
    handleTftp s pkt addr = rrqDefault s addr := by
  unfold handleTftp
  rw [if_pos hstart]
  unfold usableBlksizeB at hu
  split
  next v hd =>
    rw [hd] at hu
    have hu2 : (match pyInt v with
        | none => (none : Option Int)
        | some sz => if 8 ≤ sz ∧ sz ≤ 65464 then some sz else none) = none := hu
    split
    next sz hi =>
      rw [hi] at hu2
      have hu3 : (if 8 ≤ sz ∧ sz ≤ 65464 then some sz else (none : Option Int)) = none := hu2
      refine if_neg fun hr => ?_
      rw [if_pos hr] at hu3
      cases hu3
    next hi => rfl
  next hd => rfl

/-- An RRQ with a usable `blksize` option takes the negotiation path of
lines 176-179. -/
theorem handleTftp_rrq_some {s : TFTPServer} {pkt : Bytes} {addr : Nat} {sz : Int}
    (hstart : bytesStartsWith pkt s.rrqHead = true)
    (hu : usableBlksizeB pkt = some sz) :
    handleTftp s pkt addr =
      match sendOack (setBlockSize s sz.toNat) addr with
      | .error e => .error e
      | .ok out => .ok (setBlockSize s sz.toNat, out) := by
  unfold handleTftp
  rw [if_pos hstart]
  unfold usableBlksizeB at hu
  split
  next v hd =>
    rw [hd] at hu
    have hu2 : (match pyInt v with
        | none => (none : Option Int)
        | some sz2 => if 8 ≤ sz2 ∧ sz2 ≤ 65464 then some sz2 else none) = some sz := hu
    split
    next sz0 hi =>
      rw [hi] at hu2
      have hu3 : (if 8 ≤ sz0 ∧ sz0 ≤ 65464 then some sz0 else (none : Option Int))
          = some sz := hu2
      by_cases hr : 8 ≤ sz0 ∧ sz0 ≤ 65464
      · rw [if_pos hr] at hu3
        injection hu3 with hu4
        rw [if_pos hr, hu4]
      · rw [if_neg hr] at hu3; cases hu3
    next hi =>
      rw [hi] at hu2
      cases hu2
  next hd =>
    rw [hd] at hu
    cases hu

/-- The fall-through path sends exactly one DATA packet for block 1 with
the first `block_size` bytes of the firmware, when the firmware is
non-empty and the stored block count passes `_check_limits`. -/
theorem rrqDefault_ok {s : TFTPServer} {addr : Nat}
    (hne : s.data ≠ []) (hS : 0 < s.block_size) (hlim : s.total_blocks ≤ 65535) :
    rrqDefault s addr = .ok (s, [(addr, [0, 3, 0, 1] ++ s.data.take s.block_size)]) := by
  have hchunk : ¬ s.data.take s.block_size = [] := by
    rw [List.take_eq_nil_iff]
    push_neg
    exact ⟨by omega, hne⟩
  unfold rrqDefault checkLimits
  rw [if_neg (by omega)]
  simp only [sendBlock, Nat.zero_mul, List.drop_zero]
  rw [if_neg hchunk]
  rfl

/-- The fall-through path raises the `TFTPError` of `_check_limits` when
the stored block count exceeds 65535, and sends nothing. -/
theorem rrqDefault_overflow {s : TFTPServer} {addr : Nat}
    (hlim : 65535 < s.total_blocks) :
    rrqDefault s addr =
      .error (.tftpError ("File too large for block size " ++ toString s.block_size)) := by
  unfold rrqDefault checkLimits
  rw [if_pos hlim]

/-- A `_send_block` call whose slice starts past the end of the data
sends nothing and resets a non-default block size. -/
theorem sendBlock_past {s : TFTPServer} {prev addr : Nat}
    (hend : s.data.length ≤ prev * s.block_size) :
    sendBlock s prev addr =
      .ok (if s.block_size ≠ DEFAULT_BLOCK_SIZE then setBlockSize s DEFAULT_BLOCK_SIZE else s,
           []) := by
  have hchunk : (s.data.drop (prev * s.block_size)).take s.block_size = [] := by
    rw [List.drop_eq_nil_iff.mpr hend]
    exact List.take_nil
  simp only [sendBlock]
  rw [if_pos hchunk]

/-- A `_send_block` call whose slice is non-empty sends exactly one DATA
packet for block `prev + 1`, provided the block number fits 16 bits. -/
theorem sendBlock_send {s : TFTPServer} {prev addr : Nat}
    (hS : 0 < s.block_size) (hlt : prev * s.block_size < s.data.length)
    (hpack : prev + 1 < 65536) :
    sendBlock s prev addr =
      .ok (s, [(addr, [0, 3, (prev + 1) / 256, (prev + 1) % 256]
        ++ (s.data.drop (prev * s.block_size)).take s.block_size)]) := by
  have hchunk : ¬ (s.data.drop (prev * s.block_size)).take s.block_size = [] := by
    rw [chunk_eq_nil_iff hS]
    omega
  simp only [sendBlock]
  rw [if_neg hchunk]
  unfold pack16Checked
  rw [if_pos hpack]
  rfl

/-- Adopting block size 8 for the 524281-byte firmware yields the
concrete state with 65536 total blocks. -/
theorem sBig8_eq : setBlockSize (initServer [102] fwBig) 8 =
    ⟨fwBig, [0, 1, 102, 0, 111, 99, 116, 101, 116, 0], 8, 65536⟩ := by
  have h : fwBig.length = 524281 := List.length_replicate 524281 0
  simp [initServer, setBlockSize, h, octetMarker, pack16, OP_RRQ, DEFAULT_BLOCK_SIZE]

/-- The negotiation `blksize=8` on the 524281-byte firmware raises the
overflow `TFTPError` from inside `_send_oack`; no packet is sent. -/
theorem overflow_rrq_b8 :
    handleTftp (initServer [102] fwBig) rrqPktB8 7 =
      .error (.tftpError "File too large for block size 8") := by
  rw [handleTftp_rrq_some
    (show bytesStartsWith rrqPktB8 (initServer [102] fwBig).rrqHead = true from by decide)
    (show usableBlksizeB rrqPktB8 = some 8 from by decide)]
  have h2 : setBlockSize (initServer [102] fwBig) ((8 : Int).toNat) =
      (⟨fwBig, [0, 1, 102, 0, 111, 99, 116, 101, 116, 0], 8, 65536⟩ : TFTPServer) := sBig8_eq
  rw [h2]
  decide

/-! ### Claims -/

/-- C1: for every firmware length `L` and block size `S` in `[8, 65464]`,
`_set_block_size S` stores as total block count the ceiling of `L / S`
(the least `m` with `L ≤ S * m`), and `_check_limits` succeeds exactly
when that count is at most 65535, raising the fatal `TFTPError` exactly
when it is strictly greater (65535 itself is accepted). -/
theorem blockCount_is_ceil_and_limit (s : TFTPServer) (S : Nat)
    (h8 : 8 ≤ S) (h65 : S ≤ 65464) :
    (s.data.length ≤ S * (setBlockSize s S).total_blocks ∧
      ∀ m : Nat, s.data.length ≤ S * m → (setBlockSize s S).total_blocks ≤ m) ∧
    (checkLimits (setBlockSize s S) = .ok () ↔ (setBlockSize s S).total_blocks ≤ 65535) ∧
    (65535 < (setBlockSize s S).total_blocks →
      checkLimits (setBlockSize s S) =
        .error (.tftpError ("File too large for block size " ++ toString S))) := by
  have hS : 0 < S := by omega
  have htot : (setBlockSize s S).total_blocks = (s.data.length + S - 1) / S := rfl
  refine ⟨⟨?_, ?_⟩, ?_, ?_⟩
  · rw [htot]
    exact (ceil_le_iff hS).mp le_rfl
  · intro m hm
    rw [htot]
    exact (ceil_le_iff hS).mpr hm
  · unfold checkLimits
    constructor
    · intro h
      by_contra hc
      rw [if_pos (by omega)] at h
      cases h
    · intro h
      rw [if_neg (by omega)]
  · intro h
    unfold checkLimits
    rw [if_pos h]
    rfl

/-- C1 witness at firmware `[1, 2, 3]` and block size 8. -/
theorem blockCount_is_ceil_and_limit_app :
    3 ≤ 8 * (setBlockSize (initServer [102] [1, 2, 3]) 8).total_blocks ∧
    checkLimits (setBlockSize (initServer [102] [1, 2, 3]) 8) = .ok () := by
  refine ⟨?_, ?_⟩
  · exact (blockCount_is_ceil_and_limit (initServer [102] [1, 2, 3]) 8
      (by decide) (by decide)).1.1
  · exact (blockCount_is_ceil_and_limit (initServer [102] [1, 2, 3]) 8
      (by decide) (by decide)).2.1.mpr (by decide)

/-- C2 counterexample: at block size 8 a 524281-byte firmware makes the
option-less Read-Request raise the overflow `TFTPError` instead of
sending a DATA packet for block 1. -/
theorem rrq_overflow_no_data :
    handleTftp (setBlockSize (initServer [102] fwBig) 8) rrqPkt102 9 =
      .error (.tftpError "File too large for block size 8") := by
  rw [handleTftp_rrq_none (by decide) (by decide), sBig8_eq]
  exact rrqDefault_overflow (by decide)

/-- C2 amended: an option-less (or not-usable-option) Read-Request is
answered by exactly one DATA packet with opcode 3, block number 1 and
the first `block_size` bytes of the firmware, addressed to the
requester — provided the firmware is non-empty and the stored total
block count passes the 65535 check. -/
theorem rrq_no_option_sends_first_block (s : TFTPServer) (pkt : Bytes) (addr : Nat)
    (hstart : bytesStartsWith pkt s.rrqHead = true)
    (hno : usableBlksizeB pkt = none)
    (hne : s.data ≠ []) (hS : 0 < s.block_size) (hlim : s.total_blocks ≤ 65535) :
    handleTftp s pkt addr = .ok (s, [(addr, [0, 3, 0, 1] ++ s.data.take s.block_size)]) := by
  rw [handleTftp_rrq_none hstart hno]
  exact rrqDefault_ok hne hS hlim

/-- C2 witness at firmware `[5, 6, 7]` and the plain RRQ. -/
theorem rrq_no_option_sends_first_block_app :
    handleTftp (initServer [102] [5, 6, 7]) rrqPkt102 3 =
      .ok (initServer [102] [5, 6, 7], [(3, [0, 3, 0, 1, 5, 6, 7])]) := by
  have h := rrq_no_option_sends_first_block (initServer [102] [5, 6, 7]) rrqPkt102 3
    (by decide) (by decide) (by decide) (by decide) (by decide)
  rw [h]
  decide

/-- C3: a datagram starting with the 2-byte ACK opcode that is at least
4 bytes long, acknowledging block `K` (16-bit big-endian), is answered
by the DATA packet for block `K + 1` carrying the firmware slice
starting at `K * block_size`, or by no packet at all when `K + 1`
exceeds the stored total block count.  The state invariants assumed are
the ones the data model maintains: the total is the recomputed ceiling
and is at most 65535, the block size is positive, and the RRQ prefix
starts with the RRQ opcode bytes. -/
theorem ack_sends_next_block (s : TFTPServer) (pkt r : Bytes) (addr : Nat)
    (hr : s.rrqHead = 0 :: 1 :: r)
    (hinv : s.total_blocks = (s.data.length + s.block_size - 1) / s.block_size)
    (hS : 0 < s.block_size)
    (hlim : s.total_blocks ≤ 65535)
    (hack : bytesStartsWith pkt ackHead = true)
    (hlen : 4 ≤ pkt.length) :
    handleTftp s pkt addr =
      if pkt.getD 2 0 * 256 + pkt.getD 3 0 + 1 ≤ s.total_blocks then
        .ok (s, [(addr, [0, 3,
          (pkt.getD 2 0 * 256 + pkt.getD 3 0 + 1) / 256,
          (pkt.getD 2 0 * 256 + pkt.getD 3 0 + 1) % 256]
          ++ (s.data.drop ((pkt.getD 2 0 * 256 + pkt.getD 3 0) * s.block_size)).take
              s.block_size)])
      else
        .ok (if s.block_size ≠ DEFAULT_BLOCK_SIZE then setBlockSize s DEFAULT_BLOCK_SIZE
             else s, []) := by
  have hrrq : ¬ bytesStartsWith pkt s.rrqHead = true := by
    obtain ⟨t, ht⟩ := bytesStartsWith_iff.mp hack
    have hp : pkt = 0 :: 4 :: t := by simpa [ackHead, pack16, OP_ACK] using ht
    rw [hr, hp]
    simp [bytesStartsWith]
  unfold handleTftp
  rw [if_neg hrrq, if_pos ⟨hack, hlen⟩]
  set K := pkt.getD 2 0 * 256 + pkt.getD 3 0 with hK
  by_cases hc : K + 1 ≤ s.total_blocks
  · rw [if_pos hc]
    have hlt : K * s.block_size < s.data.length := by
      by_contra hge
      push_neg at hge
      have hceil : s.total_blocks ≤ K := by
        rw [hinv]
        exact (ceil_le_iff hS).mpr (Nat.mul_comm K s.block_size ▸ hge)
      omega
    exact sendBlock_send hS hlt (by omega)
  · rw [if_neg hc]
    have hend : s.data.length ≤ K * s.block_size := by
      have h1 : s.total_blocks ≤ K := by omega
      rw [hinv] at h1
      exact Nat.mul_comm s.block_size K ▸ (ceil_le_iff hS).mp h1
    exact sendBlock_past hend

/-- C3 witness: ACK of block 0 on a 3-byte firmware yields DATA block 1. -/
theorem ack_sends_next_block_app :
    handleTftp (initServer [102] [1, 2, 3]) [0, 4, 0, 0] 2 =
      .ok (initServer [102] [1, 2, 3], [(2, [0, 3, 0, 1, 1, 2, 3])]) := by
  have h := ack_sends_next_block (initServer [102] [1, 2, 3]) [0, 4, 0, 0]
    [102, 0, 111, 99, 116, 101, 116, 0] 2
    (by decide) (by decide) (by decide) (by decide) (by decide) (by decide)
  rw [h]
  decide

/-- C4 counterexample: the 524281-byte firmware with requested
`blksize=8` raises the overflow `TFTPError` instead of replying with an
OACK. -/
theorem rrq_blksize_overflow_no_oack :
    handleTftp (initServer [102] fwBig) rrqPktB8 7 =
      .error (.tftpError "File too large for block size 8") := overflow_rrq_b8

/-- C4 amended: a Read-Request with a `blksize` option parsing into
`[8, 65464]` adopts the value as the new block size; when the
recomputed total block count is at most 65535 the reply is exactly one
OACK packet (opcode 6, "blksize", the accepted value) and no DATA;
otherwise the fatal overflow `TFTPError` is raised and nothing is
sent. -/
theorem rrq_blksize_negotiation (s : TFTPServer) (pkt : Bytes) (addr : Nat) (sz : Int)
    (hstart : bytesStartsWith pkt s.rrqHead = true)
    (hu : usableBlksizeB pkt = some sz) :
    (setBlockSize s sz.toNat).block_size = sz.toNat ∧
    ((setBlockSize s sz.toNat).total_blocks ≤ 65535 →
      handleTftp s pkt addr = .ok (setBlockSize s sz.toNat,
        [(addr, [0, 6] ++ blksizeKey ++ [0] ++ natDecimalCodes sz.toNat ++ [0])])) ∧
    (65535 < (setBlockSize s sz.toNat).total_blocks →
      handleTftp s pkt addr = .error (.tftpError
        ("File too large for block size " ++ toString sz.toNat))) := by
  refine ⟨rfl, ?_, ?_⟩
  · intro hlim
    rw [handleTftp_rrq_some hstart hu]
    unfold sendOack checkLimits
    rw [if_neg (by omega)]
    rfl
  · intro hov
    rw [handleTftp_rrq_some hstart hu]
    unfold sendOack checkLimits
    rw [if_pos hov]
    rfl

/-- C4 witness: `blksize=1024` on a 3-byte firmware yields the OACK
naming 1024 and no DATA. -/
theorem rrq_blksize_negotiation_app :
    handleTftp (initServer [102] [1, 2, 3])
        (rrqPkt102 ++ blksizeKey ++ [0, 49, 48, 50, 52, 0]) 4 =
      .ok (setBlockSize (initServer [102] [1, 2, 3]) 1024,
        [(4, [0, 6] ++ blksizeKey ++ [0] ++ natDecimalCodes 1024 ++ [0])]) := by
  have h := (rrq_blksize_negotiation (initServer [102] [1, 2, 3])
    (rrqPkt102 ++ blksizeKey ++ [0, 49, 48, 50, 52, 0]) 4 1024
    (by decide) (by decide)).2.1 (by decide)
  rw [h]
  decide

/-- C5 counterexample: with a 520-byte firmware at negotiated block
size 65464 (total 1 block), sending block 2 is a silent no-op that
resets the block size to 512 — but repeating the very same call on the
resulting state sends a DATA packet for block 2, because the reset
lifted the total block count to 2.  The repetition is not an
idempotent no-op. -/
theorem sendBlock_repeat_not_idempotent :
    sendBlock (setBlockSize (initServer [102] fw520) 65464) 1 9 =
      .ok (setBlockSize (setBlockSize (initServer [102] fw520) 65464) 512, []) ∧
    sendBlock (setBlockSize (setBlockSize (initServer [102] fw520) 65464) 512) 1 9 =
      .ok (setBlockSize (setBlockSize (initServer [102] fw520) 65464) 512,
        [(9, [0, 3, 0, 2, 0, 0, 0, 0, 0, 0, 0, 0])]) := by
  exact ⟨by decide, by decide⟩

/-- C5 amended: sending block `prev + 1` past the stored total block
count emits no packet and leaves the block size at the default 512;
the repeated call is again a no-op provided the block number also
exceeds the block count recomputed at the default size (in particular
always when the block size already was 512). -/
theorem sendBlock_past_end_resets (s : TFTPServer) (prev addr : Nat)
    (hinv : s.total_blocks = (s.data.length + s.block_size - 1) / s.block_size)
    (hS : 0 < s.block_size)
    (hgt : s.total_blocks < prev + 1) :
    sendBlock s prev addr =
      .ok (if s.block_size ≠ DEFAULT_BLOCK_SIZE then setBlockSize s DEFAULT_BLOCK_SIZE
           else s, []) ∧
    (if s.block_size ≠ DEFAULT_BLOCK_SIZE then setBlockSize s DEFAULT_BLOCK_SIZE
     else s).block_size = DEFAULT_BLOCK_SIZE ∧
    ((s.data.length + 511) / 512 < prev + 1 →
      sendBlock (if s.block_size ≠ DEFAULT_BLOCK_SIZE then setBlockSize s DEFAULT_BLOCK_SIZE
                 else s) prev addr =
        .ok (if s.block_size ≠ DEFAULT_BLOCK_SIZE then setBlockSize s DEFAULT_BLOCK_SIZE
             else s, [])) := by
  have hend : s.data.length ≤ prev * s.block_size := by
    have h1 : s.total_blocks ≤ prev := by omega
    rw [hinv] at h1
    exact Nat.mul_comm s.block_size prev ▸ (ceil_le_iff hS).mp h1
  have hbs : (if s.block_size ≠ DEFAULT_BLOCK_SIZE then setBlockSize s DEFAULT_BLOCK_SIZE
      else s).block_size = DEFAULT_BLOCK_SIZE := by
    by_cases hb : s.block_size = DEFAULT_BLOCK_SIZE
    · rw [if_neg (fun h => h hb)]
      exact hb
    · rw [if_pos hb]
      rfl
  have hdata : (if s.block_size ≠ DEFAULT_BLOCK_SIZE then setBlockSize s DEFAULT_BLOCK_SIZE
      else s).data = s.data := by
    by_cases hb : s.block_size = DEFAULT_BLOCK_SIZE
    · rw [if_neg (fun h => h hb)]
    · rw [if_pos hb]
      rfl
  refine ⟨sendBlock_past hend, hbs, ?_⟩
  intro h2
  have hend2 : (if s.block_size ≠ DEFAULT_BLOCK_SIZE then setBlockSize s DEFAULT_BLOCK_SIZE
      else s).data.length ≤ prev * (if s.block_size ≠ DEFAULT_BLOCK_SIZE
        then setBlockSize s DEFAULT_BLOCK_SIZE else s).block_size := by
    rw [hdata, hbs]
    have hd : DEFAULT_BLOCK_SIZE = 512 := rfl
    rw [hd]
    have h3 : (s.data.length + 512 - 1) / 512 ≤ prev := by omega
    have h4 := (ceil_le_iff (show 0 < 512 by omega)).mp h3
    omega
  rw [sendBlock_past hend2]
  rw [if_neg (fun h => h hbs)]

/-- C5 witness: with firmware `[1, 2, 3]` at the default block size,
sending block 2 (one past the single block) is a no-op. -/
theorem sendBlock_past_end_resets_app :
    sendBlock (initServer [102] [1, 2, 3]) 1 4 = .ok (initServer [102] [1, 2, 3], []) := by
  have h := (sendBlock_past_end_resets (initServer [102] [1, 2, 3]) 1 4
    (by decide) (by decide) (by decide)).1
  rw [h]
  decide

/-- C6: a Read-Request whose `blksize` value does not parse as an
integer or parses outside `[8, 65464]` is handled exactly like a
request with no usable option at all, and under the data-model
invariants the reply is the immediate DATA block 1 at the current
block size with unchanged state — no OACK. -/
theorem rrq_bad_blksize_ignored (s : TFTPServer) (pkt pkt2 : Bytes) (v : List Nat) (addr : Nat)
    (hstart : bytesStartsWith pkt s.rrqHead = true)
    (hp : dictGet (parseOptions pkt) blksizeKey = some v)
    (hbad : pyInt v = none ∨ ∃ sz, pyInt v = some sz ∧ (sz < 8 ∨ 65464 < sz))
    (hstart2 : bytesStartsWith pkt2 s.rrqHead = true)
    (hno2 : usableBlksizeB pkt2 = none) :
    handleTftp s pkt addr = handleTftp s pkt2 addr ∧
    (s.data ≠ [] → 0 < s.block_size → s.total_blocks ≤ 65535 →
      handleTftp s pkt addr = .ok (s, [(addr, [0, 3, 0, 1] ++ s.data.take s.block_size)])) := by
  have hno : usableBlksizeB pkt = none := by
    unfold usableBlksizeB
    rw [hp]
    show (match pyInt v with
      | none => (none : Option Int)
      | some sz => if 8 ≤ sz ∧ sz ≤ 65464 then some sz else none) = none
    rcases hbad with h | ⟨sz, hsz, hout⟩
    · rw [h]
    · rw [hsz]
      show (if 8 ≤ sz ∧ sz ≤ 65464 then some sz else (none : Option Int)) = none
      rw [if_neg (by omega)]
  constructor
  · rw [handleTftp_rrq_none hstart hno, handleTftp_rrq_none hstart2 hno2]
  · intro hne hS hlim
    rw [handleTftp_rrq_none hstart hno]
    exact rrqDefault_ok hne hS hlim

/-- C6 witness: `blksize=4` (below the minimum 8) is ignored; the RRQ
is answered by DATA block 1 at the default block size. -/
theorem rrq_bad_blksize_ignored_app :
    handleTftp (initServer [102] [9, 8, 7]) (rrqPkt102 ++ blksizeKey ++ [0, 52, 0]) 1 =
      .ok (initServer [102] [9, 8, 7], [(1, [0, 3, 0, 1, 9, 8, 7])]) := by
  have h := (rrq_bad_blksize_ignored (initServer [102] [9, 8, 7])
    (rrqPkt102 ++ blksizeKey ++ [0, 52, 0]) rrqPkt102 [52] 1
    (by decide) (by decide) (Or.inr ⟨4, by decide, Or.inl (by decide)⟩)
    (by decide) (by decide)).2 (by decide) (by decide) (by decide)
  rw [h]
  decide

/-- C7 counterexample: a 21-byte datagram whose first 20 bytes are the
magic token is answered — `recvfrom(20)` truncates the datagram before
the comparison — contradicting the claim that every datagram longer
than 20 bytes produces no reply. -/
theorem handshake_long_datagram_replies :
    handleHandshake (HANDSHAKE_BYTES ++ [0]) 3 = [(3, HANDSHAKE_BYTES)] ∧
    handleHandshake (HANDSHAKE_BYTES ++ [0]) 3 ≠ [] := ⟨by decide, by decide⟩

/-- C7 amended: the handshake responder echoes the 20-byte magic token
exactly when the first 20 bytes of the received datagram equal the
token (so a datagram equal to the token is echoed byte-for-byte, and a
longer datagram with that prefix is answered with the truncated 20
bytes); every other datagram produces no reply. -/
theorem handshake_echo_iff_first20 (d : Bytes) (a : Nat) :
    (d.take 20 = HANDSHAKE_BYTES → handleHandshake d a = [(a, HANDSHAKE_BYTES)]) ∧
    (d.take 20 ≠ HANDSHAKE_BYTES → handleHandshake d a = []) ∧
    (d = HANDSHAKE_BYTES → handleHandshake d a = [(a, d)]) := by
  refine ⟨?_, ?_, ?_⟩
  · intro h
    simp only [handleHandshake]
    rw [if_pos h, h]
  · intro h
    simp only [handleHandshake]
    rw [if_neg h]
  · intro h
    subst h
    simp only [handleHandshake]
    rw [if_pos (show HANDSHAKE_BYTES.take 20 = HANDSHAKE_BYTES from by decide),
      show HANDSHAKE_BYTES.take 20 = HANDSHAKE_BYTES from by decide]

/-- C7 witness: the exact magic token is echoed byte-for-byte. -/
theorem handshake_echo_iff_first20_app :
    handleHandshake HANDSHAKE_BYTES 5 = [(5, HANDSHAKE_BYTES)] :=
  (handshake_echo_iff_first20 HANDSHAKE_BYTES 5).1 (by decide)

/-- An exception escaping the first datagram handler ends the event
loop at once: nothing is sent, nothing further is processed. -/
theorem runLoop_error_head {s : TFTPServer} {pkt : Bytes} {addr : Nat}
    {rest : List (Bytes × Nat)} {e : PyError}
    (h : handleTftp s pkt addr = .error e) :
    runLoop s ((pkt, addr) :: rest) = (s, [], true) := by
  unfold runLoop
  rw [h]

/-- C8: for the 524281-byte firmware, the RRQ negotiating block size 8
would need 65536 blocks: the handler raises the fatal `TFTPError`, no
DATA is sent, and the loop stops without retrying — but the exception
is swallowed by the generic `except Exception` inside `run()`, so the
script falls off the end and the process exits with status 0, not the
non-zero configuration-error exit the claim requires. -/
theorem overflow_exit_status_zero :
    handleTftp (initServer [102] fwBig) rrqPktB8 7 =
      .error (.tftpError "File too large for block size 8") ∧
    pyMain true [102] fwBig [(rrqPktB8, 7)] = (0, []) := by
  refine ⟨overflow_rrq_b8, ?_⟩
  simp only [pyMain]
  rw [if_neg (show ¬(true = false) by decide), if_neg (show ¬(fwBig = []) by decide),
    runLoop_error_head overflow_rrq_b8]

/-- C9: whenever the stored total block count is at most 65535 (and is
the recomputed ceiling), `_send_block` for any acknowledged block
`prev ≤ 65535` cannot fail packing the 16-bit DATA block number: if
`prev + 1` would exceed 65535 the slice is already empty and the
function returns before packing, and in every case the `struct.error`
outcome is impossible. -/
theorem sendBlock_pack_safe (s : TFTPServer) (prev addr : Nat)
    (hinv : s.total_blocks = (s.data.length + s.block_size - 1) / s.block_size)
    (hS : 0 < s.block_size)
    (hlim : s.total_blocks ≤ 65535)
    (hk : prev ≤ 65535) :
    (65535 < prev + 1 →
      (s.data.drop (prev * s.block_size)).take s.block_size = [] ∧
      sendBlock s prev addr =
        .ok (if s.block_size ≠ DEFAULT_BLOCK_SIZE then setBlockSize s DEFAULT_BLOCK_SIZE
             else s, [])) ∧
    sendBlock s prev addr ≠ .error .structError := by
  by_cases hc : s.data.length ≤ prev * s.block_size
  · constructor
    · intro _
      refine ⟨?_, sendBlock_past hc⟩
      rw [List.drop_eq_nil_iff.mpr hc]
      exact List.take_nil
    · rw [sendBlock_past hc]
      exact fun h => Except.noConfusion h
  · push_neg at hc
    have hp : prev < s.total_blocks := by
      by_contra hge
      push_neg at hge
      rw [hinv] at hge
      have h4 := (ceil_le_iff hS).mp hge
      rw [Nat.mul_comm] at h4
      exact absurd hc (Nat.not_lt.mpr h4)
    constructor
    · intro h65
      omega
    · rw [sendBlock_send hS hc (by omega)]
      exact fun h => Except.noConfusion h

/-- C9 witness: the final-ACK block number 65535 on a 1-byte firmware
is a silent no-op, not a packing failure. -/
theorem sendBlock_pack_safe_app :
    sendBlock (initServer [102] [1]) 65535 3 = .ok (initServer [102] [1], []) ∧
    sendBlock (initServer [102] [1]) 65535 3 ≠ .error .structError := by
  have h := sendBlock_pack_safe (initServer [102] [1]) 65535 3
    (by decide) (by decide) (by decide) (by decide)
  refine ⟨?_, h.2⟩
  rw [(h.1 (by decide)).2]
  decide

/-- C10: option parsing is total and well-shaped: a packet without the
`\x00octet\x00` marker yields the empty mapping; every key of any
result is non-empty and is already lowercase (a fixed point of the
lowering map, making the `blksize` lookup case-insensitive); and a
lone trailing chunk after an even number of chunks is dropped by the
pairing loop.  Totality over arbitrary byte lists — including
undecodable ones — is inherent: `parseOptions` is a total function
built on the fuel-complete UTF-8 decoder. -/
theorem parseOptions_props :
    (∀ pkt : Bytes, splitAfterFirst octetMarker pkt = none → parseOptions pkt = []) ∧
    (∀ (pkt : Bytes) (kv : List Nat × List Nat), kv ∈ parseOptions pkt →
      kv.1 ≠ [] ∧ pyLower kv.1 = kv.1) ∧
    (∀ (x : Bytes) (parts : List Bytes), parts.length % 2 = 0 →
      optLoop (parts ++ [x]) [] = optLoop parts []) := by
  refine ⟨?_, ?_, ?_⟩
  · intro pkt h
    unfold parseOptions
    rw [h]
  · intro pkt kv hkv
    unfold parseOptions at hkv
    cases hsp : splitAfterFirst octetMarker pkt with
    | none =>
      rw [hsp] at hkv
      have hkv2 : kv ∈ ([] : List (List Nat × List Nat)) := hkv
      cases hkv2
    | some am =>
      rw [hsp] at hkv
      have hkv2 : kv ∈ optLoop (splitOnZero am) [] := hkv
      exact optLoop_keys _ [] kv hkv2 (fun y hy => by cases hy)
  · intro x parts h
    exact optLoop_even_append x parts [] h

/-- C10 witness: a marker-less packet parses to the empty mapping, and
a lone third chunk is dropped. -/
theorem parseOptions_props_app :
    parseOptions [1, 2, 3] = [] ∧
    optLoop ([[97], [98]] ++ [[99]]) [] = optLoop [[97], [98]] [] :=
  ⟨parseOptions_props.1 [1, 2, 3] (by decide),
   parseOptions_props.2.2 [99] [[97], [98]] (by decide)⟩

end Unbrick
